import Mathlib

/-!
Shallow embedding of the logging core of `abs2free/go-kit`
(`src/logger/logger.go`), together with the semantics of the parts of
`go.uber.org/zap/zapcore` that the code observably relies on (severity
levels and their ordering, the tee core fan-out, and the level-filter
`Enabled` check).

Modeling conventions:
- `zapcore.Level` is an `Int` (`int8` in Go): debug = -1 up to fatal = 5.
- Encoder function values stored in an `EncoderConfig` are represented by
  closed enumerations listing exactly the encoder values the repository
  assigns (`zapcore.LowercaseLevelEncoder`, `zapcore.CapitalColorLevelEncoder`,
  `CustomLevelEncoder`, and so on); the string semantics of
  `CustomLevelEncoder` itself is embedded as a Lean function on levels.
- Go mutation of the shared `DefaultConfig` global is made observable by
  giving each core builder the type
  `LoggerConfig -> (Option Core, LoggerConfig)`: the input is the value of
  the global `DefaultConfig` when the builder runs, the second output is
  its value afterwards.  A builder that only works on its local copy
  (`cfg := *DefaultConfig`) returns the global unchanged.
- The package-level `var Logger` slot, and the flush-then-replace sequence
  inside `new`, are modeled by a `GlobalState` record threaded through
  `newGo`, plus an ordered trace of `Event`s (`sync` of the previous
  handle, `install` of the new one).  The Go result of `Logger.Sync()` is
  an input oracle `syncErr`; the code discards it (`_ = Logger.Sync()`).
- `os.MkdirAll` inside the exported `New` is an effect; its success is the
  boolean input `mkdirOk`.
-/

namespace GoKit

/-- Severity, `zapcore.Level`, an ordered `int8`. -/
abbrev Level := Int

def DebugLevel : Level := -1
def InfoLevel : Level := 0
def WarnLevel : Level := 1
def ErrorLevel : Level := 2
def DPanicLevel : Level := 3
def PanicLevel : Level := 4
def FatalLevel : Level := 5

/-- The `zapcore.Level.String()` method: the lowercase textual label, with the
`Level(%d)` fallback for levels outside the known range. -/
def levelString (l : Level) : String :=
  if l = DebugLevel then "debug"
  else if l = InfoLevel then "info"
  else if l = WarnLevel then "warn"
  else if l = ErrorLevel then "error"
  else if l = DPanicLevel then "dpanic"
  else if l = PanicLevel then "panic"
  else if l = FatalLevel then "fatal"
  else "Level(" ++ toString l ++ ")"

/-- From `CustomLevelEncoder` (logger.go lines 50-71): the string appended to the
primitive array encoder for each level.  ANSI SGR color prefixes: 37 white,
32 green, 33 yellow, 31 red, 35 magenta; 36 (cyan) is used by the time
encoder. -/
def CustomLevelEncoder (level : Level) : String :=
  if level = DebugLevel then "\x1b[37mDEBUG\x1b[0m"
  else if level = InfoLevel then "\x1b[32mINFO\x1b[0m"
  else if level = WarnLevel then "\x1b[33mWARN\x1b[0m"
  else if level = ErrorLevel then "\x1b[31mERROR\x1b[0m"
  else if level = DPanicLevel then "\x1b[35mDPANIC\x1b[0m"
  else if level = PanicLevel then "\x1b[35mPANIC\x1b[0m"
  else if level = FatalLevel then "\x1b[35mFATAL\x1b[0m"
  else levelString level

/-- Does a rendered level tag contain the ANSI escape character (so a color
code)? -/
def hasColorCode (s : String) : Bool :=
  s.data.any fun c => c.toNat = 27

/-- The level-encoder function values the repository ever stores in an
`EncoderConfig.EncodeLevel` field. -/
inductive LevelEncoderVal where
  | lowercase      -- zapcore.LowercaseLevelEncoder
  | capitalColor   -- zapcore.CapitalColorLevelEncoder
  | custom         -- CustomLevelEncoder (logger.go)
  deriving DecidableEq, Repr

/-- A level encoder is colorized when it emits ANSI color codes:
`CapitalColorLevelEncoder` colors by severity (zapcore), and
`CustomLevelEncoder` emits the fixed color table above;
`LowercaseLevelEncoder` is plain. -/
def LevelEncoderVal.isColorized : LevelEncoderVal → Bool
  | .lowercase => false
  | .capitalColor => true
  | .custom => true

/-- The time-encoder function values the repository ever stores. -/
inductive TimeEncoderVal where
  | iso8601        -- zapcore.ISO8601TimeEncoder
  | customColored  -- CustomTimeEncoder (cyan "2006-01-02 15:04:05.000")
  | fileTime       -- the closure set by newJSONEncoder (plain same format)
  deriving DecidableEq, Repr

/-- A time encoder is colorized when it emits ANSI color codes: only
`CustomTimeEncoder` (cyan) does. -/
def TimeEncoderVal.isColorized : TimeEncoderVal → Bool
  | .iso8601 => false
  | .customColored => true
  | .fileTime => false

inductive DurationEncoderVal where
  | seconds        -- zapcore.SecondsDurationEncoder
  deriving DecidableEq, Repr

inductive CallerEncoderVal where
  | short          -- zapcore.ShortCallerEncoder
  deriving DecidableEq, Repr

/-- The subset of `zapcore.EncoderConfig` the repository reads or writes. -/
structure EncoderConfig where
  LevelKey : String
  NameKey : String
  TimeKey : String
  MessageKey : String
  CallerKey : String
  StacktraceKey : String
  LineEnding : String
  EncodeLevel : LevelEncoderVal
  EncodeTime : TimeEncoderVal
  EncodeDuration : DurationEncoderVal
  EncodeCaller : CallerEncoderVal
  deriving DecidableEq, Repr

/-- The subset of `lumberjack.Logger` the repository reads or writes. -/
structure RotateConfig where
  MaxSize : Int
  MaxAge : Int
  MaxBackups : Int
  Compress : Bool
  Filename : String
  deriving DecidableEq, Repr

/-- Structure `LoggerConfig` (logger.go lines 16-21). -/
structure LoggerConfig where
  Encoder : EncoderConfig
  Rotate : RotateConfig
  Level : Level
  FilePath : String
  deriving DecidableEq, Repr

/-- The shared `DefaultConfig` value (logger.go lines 24-47). -/
def DefaultConfig : LoggerConfig :=
  { Level := InfoLevel
    FilePath := "logs/zap.log"
    Rotate :=
      { MaxSize := 20
        MaxAge := 30
        MaxBackups := 50
        Compress := false
        Filename := "logs/zap.log" }
    Encoder :=
      { LevelKey := "level"
        NameKey := "logs/zap.log"
        TimeKey := "time"
        MessageKey := "msg"
        CallerKey := "caller"
        StacktraceKey := "stacktrace"
        LineEnding := "\n"
        EncodeLevel := .lowercase
        EncodeTime := .iso8601
        EncodeDuration := .seconds
        EncodeCaller := .short } }

/-- Type `Option func(*LoggerConfig)` from logger.go; named `Opt` here to avoid
shadowing the Lean core `Option` type.  An option mutates the
configuration record it is handed (always the builder-local copy). -/
abbrev Opt := LoggerConfig → LoggerConfig

/-- Option `WithLogLevel` (logger.go lines 81-85). -/
def WithLogLevel (level : Level) : Opt := fun cfg =>
  { cfg with Level := level }

/-- Option `WithLogFilePath` (logger.go lines 87-93). -/
def WithLogFilePath (filePath : String) : Opt := fun cfg =>
  { cfg with
      FilePath := filePath
      Rotate.Filename := filePath
      Encoder.NameKey := filePath }

/-- Option `WithLogFormat` (logger.go lines 95-99). -/
def WithLogFormat (format : EncoderConfig) : Opt := fun cfg =>
  { cfg with Encoder := format }

/-- Option `WithRotateSettings` (logger.go lines 101-107). -/
def WithRotateSettings (maxSize maxAge : Int) (compress : Bool) : Opt := fun cfg =>
  { cfg with
      Rotate.MaxSize := maxSize
      Rotate.MaxAge := maxAge
      Rotate.Compress := compress }

/-- Option `WithColorOutput` (logger.go lines 149-158).  The Go body performs, when
`enabled` is false, four successive assignments; the second write to
`EncodeLevel` (`CapitalColorLevelEncoder`) overwrites the first
(`LowercaseLevelEncoder`). -/
def WithColorOutput (enabled : Bool) : Opt := fun cfg =>
  if !enabled then
    let c1 := { cfg with Encoder.EncodeLevel := .lowercase }
    let c2 := { c1 with Encoder.EncodeTime := .iso8601 }
    let c3 := { c2 with Encoder.EncodeCaller := .short }
    { c3 with Encoder.EncodeLevel := .capitalColor }
  else
    cfg

/-- Apply an ordered list of options left to right (the builder loop
`for _, opt := range options { opt(&cfg) }`). -/
def applyOptions (options : List Opt) (cfg : LoggerConfig) : LoggerConfig :=
  options.foldl (fun c o => o c) cfg

/-- The encoder component of a built core. -/
inductive EncoderVal where
  | json (cfg : EncoderConfig)     -- zapcore.NewJSONEncoder(cfg)
  | console (cfg : EncoderConfig)  -- zapcore.NewConsoleEncoder(cfg)
  deriving DecidableEq, Repr

/-- The writer component of a built core. -/
inductive WriterVal where
  | file (r : RotateConfig)  -- zapcore.AddSync(&cfg.Rotate), a lumberjack writer
  | stdout                   -- zapcore.AddSync(os.Stdout)
  deriving DecidableEq, Repr

/-- A built `zapcore.Core`: one encoder, one writer, one minimum severity
(`zapcore.NewCore(enc, ws, level)`). -/
structure Core where
  encoder : EncoderVal
  writer : WriterVal
  level : Level
  deriving DecidableEq, Repr

/-- The `LevelEnabler.Enabled` check for a plain level (zapcore):
`func (l Level) Enabled(lvl Level) bool { return lvl >= l }`. -/
def Core.Enabled (c : Core) (lvl : Level) : Bool :=
  c.level ≤ lvl

/-- The `zapcore.NewTee` fan-out: a write at severity `lvl` is delivered to
exactly the cores whose level filter admits it (each core checks
independently in `multiCore.Check`). -/
def teeWrite (cores : List Core) (lvl : Level) : List Core :=
  cores.filter fun c => c.Enabled lvl

/-- A core builder observed against the shared `DefaultConfig` global: input
is the value of the global when the builder runs, outputs are the core it
wrote (or `none` when it left `*core` nil) and the value of the global
afterwards.  This is `CoreBuilder func(*zapcore.Core)` with the access to
the `DefaultConfig` global made explicit. -/
abbrev BuilderFn := LoggerConfig → Option Core × LoggerConfig

/-- Builder `WithFileCore` (logger.go lines 111-126).  Copies the default
(`cfg := *DefaultConfig`), applies the bound options in order, then forces
`cfg.Rotate.Filename = cfg.Encoder.NameKey` (line 118) and, inside
`newJSONEncoder` (lines 206-211), forces the plain file time format before
building the JSON encoder.  The shared default is read, never written. -/
def WithFileCore (options : List Opt) : BuilderFn := fun d =>
  let cfg := applyOptions options d
  let cfg1 := { cfg with Rotate.Filename := cfg.Encoder.NameKey }
  let cfg2 := { cfg1 with Encoder.EncodeTime := .fileTime }
  (some { encoder := .json cfg2.Encoder
          writer := .file cfg2.Rotate
          level := cfg2.Level },
   d)

/-- Builder `WithConsoleCore` (logger.go lines 128-146).  Copies the default, sets
the colorized level and time encoders (lines 133-134), and only then
applies the bound options in order (lines 136-138); so a later option can
overwrite the colorized encoders.  The shared default is read, never
written. -/
def WithConsoleCore (options : List Opt) : BuilderFn := fun d =>
  let cfg0 := { d with
    Encoder.EncodeLevel := LevelEncoderVal.custom
    Encoder.EncodeTime := TimeEncoderVal.customColored }
  let cfg := applyOptions options cfg0
  (some { encoder := .console cfg.Encoder
          writer := .stdout
          level := cfg.Level },
   d)

/-- The errors the package can return, plus the error taxonomy of spec
section 7: the two `fmt.Errorf` results of `new` are configuration errors;
`failed to create log directory` from `New` is not (it is a sink
construction problem). -/
inductive GoError where
  | noBuilders      -- "at least one core builder is required"
  | noValidCores    -- "no valid log cores were configured"
  | dirCreateFailed -- "failed to create log directory: ..."
  deriving DecidableEq, Repr

/-- Configuration errors: no valid sink could be built. -/
def isConfigError : GoError → Bool
  | .noBuilders => true
  | .noValidCores => true
  | .dirCreateFailed => false

/-- The handle built by `zap.New(zapcore.NewTee(cores...), opts...)` and
`.Sugar()`: the tee over the collected cores, with the caller skip and
stacktrace threshold of the fixed `opts` slice (logger.go lines 186-190). -/
structure Handle where
  cores : List Core
  callerSkip : Int
  stacktraceLevel : Level
  deriving DecidableEq, Repr

/-- A leveled write through the handle reaches the sinks the tee admits. -/
def Handle.write (h : Handle) (lvl : Level) : List Core :=
  teeWrite h.cores lvl

/-- The package-level mutable state: the shared `DefaultConfig` global and
the process-wide `var Logger` slot (nil at process start). -/
structure GlobalState where
  defaultCfg : LoggerConfig
  logger : Option Handle
  deriving DecidableEq, Repr

/-- The state at process start: stock defaults, no logger installed. -/
def initialState : GlobalState :=
  { defaultCfg := DefaultConfig, logger := none }

/-- Observable lifecycle events of `new`, in execution order:
`sync prev errored` is `Logger.Sync()` on the previous handle (with the
oracle saying whether that flush failed), `install h` is the assignment
`Logger = logger.Sugar()`. -/
inductive Event where
  | sync (h : Handle) (errored : Bool)
  | install (h : Handle)
  deriving DecidableEq, Repr

/-- The builder loop of `new` (logger.go lines 167-180): nil builders are
skipped, each remaining builder runs against the current value of the
shared default, and builders that leave the core nil contribute nothing. -/
def collectCores : List (Option BuilderFn) → LoggerConfig → List Core × LoggerConfig
  | [], d => ([], d)
  | none :: rest, d => collectCores rest d
  | some b :: rest, d =>
      let r := b d
      let rec' := collectCores rest r.2
      match r.1 with
      | none => rec'
      | some c => (c :: rec'.1, rec'.2)

/-- Function `new` (logger.go lines 160-204).  Input `syncErr` is the oracle for whether
`Logger.Sync()` on the previous handle fails; the code discards it.
Returns the Go result, the package state afterwards, and the ordered event
trace. -/
def newGo (builders : List (Option BuilderFn)) (σ : GlobalState) (syncErr : Bool) :
    Except GoError Handle × GlobalState × List Event :=
  if builders.isEmpty then
    (.error .noBuilders, σ, [])
  else
    let collected := collectCores builders σ.defaultCfg
    let σ1 : GlobalState := { σ with defaultCfg := collected.2 }
    if collected.1.isEmpty then
      (.error .noValidCores, σ1, [])
    else
      let h : Handle :=
        { cores := collected.1, callerSkip := 1, stacktraceLevel := ErrorLevel }
      match σ.logger with
      | some prev =>
          (.ok h, { σ1 with logger := some h }, [Event.sync prev syncErr, Event.install h])
      | none =>
          (.ok h, { σ1 with logger := some h }, [Event.install h])

/-- Function `New` (logger.go lines 218-243).  Input `mkdirOk` is the oracle for
`os.MkdirAll("logs", 0755)`: when it fails, `New` returns the wrapped
directory error before building anything; otherwise it runs `new` with the
fixed file and console builders. -/
def NewGo (level : Level) (mkdirOk : Bool) (σ : GlobalState) (syncErr : Bool) :
    Except GoError Handle × GlobalState × List Event :=
  if !mkdirOk then
    (.error .dirCreateFailed, σ, [])
  else
    newGo
      [some (WithFileCore [WithRotateSettings 10 7 true, WithLogLevel level]),
       some (WithConsoleCore [WithLogLevel level, WithColorOutput true])]
      σ syncErr

namespace Claims

/-- C1, counterexample: the console builder applies its forced colorized
encoders BEFORE the caller-supplied options, so the option list
`[WithLogFormat DefaultConfig.Encoder]` yields a console configuration
whose level and time encoders are the plain defaults, not the colorized
ones — the forced overrides are overridable. -/
theorem console_forced_encoders_overridable :
    ((WithConsoleCore [WithLogFormat DefaultConfig.Encoder] DefaultConfig).1.map
        fun c => c.encoder) = some (.console DefaultConfig.Encoder)
    ∧ DefaultConfig.Encoder.EncodeLevel ≠ LevelEncoderVal.custom
    ∧ DefaultConfig.Encoder.EncodeTime ≠ TimeEncoderVal.customColored
    ∧ DefaultConfig.Encoder.EncodeLevel.isColorized = false := by
  refine ⟨rfl, by decide, by decide, rfl⟩

/-- C1, amended: `WithConsoleCore` sets the colorized level and time
encoders on a fresh copy of the default configuration and applies the
caller-supplied options AFTER them, so the options can overwrite the
colorized encoders; in particular with no options (and with any options
that leave the encoder fields alone) the resulting console configuration
keeps the colorized level and time encoders. -/
theorem console_forced_encoders_before_options :
    (∀ options d,
      (WithConsoleCore options d).1 =
        some { encoder := .console (applyOptions options
                 { d with
                     Encoder.EncodeLevel := LevelEncoderVal.custom
                     Encoder.EncodeTime := TimeEncoderVal.customColored }).Encoder
               writer := .stdout
               level := (applyOptions options
                 { d with
                     Encoder.EncodeLevel := LevelEncoderVal.custom
                     Encoder.EncodeTime := TimeEncoderVal.customColored }).Level })
    ∧ (∀ d, ((WithConsoleCore [] d).1.map fun c => c.encoder) =
        some (.console { d.Encoder with
                           EncodeLevel := LevelEncoderVal.custom
                           EncodeTime := TimeEncoderVal.customColored })) := by
  exact ⟨fun options d => rfl, fun d => rfl⟩

/-- C8, counterexample: the dpanic severity lies outside the closed mapping
the claim enumerates (debug, info, warn, error, panic, fatal), yet
`CustomLevelEncoder` renders it with a magenta color code, not as its plain
textual label. -/
theorem customLevelEncoder_dpanic_colored :
    CustomLevelEncoder DPanicLevel = "\x1b[35mDPANIC\x1b[0m"
    ∧ hasColorCode (CustomLevelEncoder DPanicLevel) = true
    ∧ levelString DPanicLevel = "dpanic"
    ∧ CustomLevelEncoder DPanicLevel ≠ levelString DPanicLevel := by
  refine ⟨rfl, by decide, rfl, by decide⟩

/-- C8, amended: the console level encoder maps each severity to a fixed,
non-configurable color — debug to white, info to green, warn to yellow,
error to red, and dpanic, panic and fatal to magenta; every severity
outside this seven-entry mapping is rendered as its plain textual label
(the result of the level String method). -/
theorem customLevelEncoder_mapping :
    CustomLevelEncoder DebugLevel = "\x1b[37mDEBUG\x1b[0m"
    ∧ CustomLevelEncoder InfoLevel = "\x1b[32mINFO\x1b[0m"
    ∧ CustomLevelEncoder WarnLevel = "\x1b[33mWARN\x1b[0m"
    ∧ CustomLevelEncoder ErrorLevel = "\x1b[31mERROR\x1b[0m"
    ∧ CustomLevelEncoder DPanicLevel = "\x1b[35mDPANIC\x1b[0m"
    ∧ CustomLevelEncoder PanicLevel = "\x1b[35mPANIC\x1b[0m"
    ∧ CustomLevelEncoder FatalLevel = "\x1b[35mFATAL\x1b[0m"
    ∧ (∀ l : Level, l ≠ DebugLevel → l ≠ InfoLevel → l ≠ WarnLevel → l ≠ ErrorLevel →
        l ≠ DPanicLevel → l ≠ PanicLevel → l ≠ FatalLevel →
        CustomLevelEncoder l = levelString l) := by
  refine ⟨rfl, rfl, rfl, rfl, rfl, rfl, rfl, ?_⟩
  intro l h1 h2 h3 h4 h5 h6 h7
  unfold CustomLevelEncoder
  rw [if_neg h1, if_neg h2, if_neg h3, if_neg h4, if_neg h5, if_neg h6, if_neg h7]

/-- C8, amended, witness: the out-of-range severity 6 falls back to the
plain textual label. -/
theorem customLevelEncoder_mapping_witness :
    CustomLevelEncoder 6 = levelString 6 :=
  customLevelEncoder_mapping.2.2.2.2.2.2.2 6 (by decide) (by decide) (by decide)
    (by decide) (by decide) (by decide) (by decide)

/-- C9: `WithColorOutput true` changes no field of the configuration, and
`WithColorOutput false` leaves the configuration with the capital-color
level encoder (the last of its two writes to `EncodeLevel` overwrites the
lowercase encoder assigned immediately before it), which is a colorized
encoder, not a plain one. -/
theorem withColorOutput_behavior :
    (∀ cfg, WithColorOutput true cfg = cfg)
    ∧ (∀ cfg,
        (WithColorOutput false cfg).Encoder.EncodeLevel = LevelEncoderVal.capitalColor
        ∧ (WithColorOutput false cfg).Encoder.EncodeLevel.isColorized = true
        ∧ (WithColorOutput false cfg).Encoder.EncodeTime = TimeEncoderVal.iso8601
        ∧ (WithColorOutput false cfg).Encoder.EncodeCaller = CallerEncoderVal.short) := by
  exact ⟨fun cfg => rfl, fun cfg => ⟨rfl, rfl, rfl, rfl⟩⟩

/-- C4: a sink delivers a record exactly when the record severity is at
least the sink minimum (`Enabled(lvl) = lvl >= min`); membership in the tee
fan-out for one core depends only on the filter of that core itself, independently
of the other cores in the list; and a sink at warn rejects debug and info
while admitting warn, error and fatal. -/
theorem sink_severity_filter :
    (∀ (c : Core) (lvl : Level), c.Enabled lvl = true ↔ c.level ≤ lvl)
    ∧ (∀ (cores : List Core) (lvl : Level) (c : Core),
        c ∈ teeWrite cores lvl ↔ c ∈ cores ∧ c.Enabled lvl = true)
    ∧ (∀ c : Core, c.level = WarnLevel →
        c.Enabled DebugLevel = false
        ∧ c.Enabled InfoLevel = false
        ∧ c.Enabled WarnLevel = true
        ∧ c.Enabled ErrorLevel = true
        ∧ c.Enabled FatalLevel = true) := by
  refine ⟨?_, ?_, ?_⟩
  · intro c lvl
    simp [Core.Enabled]
  · intro cores lvl c
    simp [teeWrite, List.mem_filter]
  · intro c hw
    simp only [Core.Enabled, hw]
    exact ⟨by decide, by decide, by decide, by decide, by decide⟩

/-- C4, witness: a concrete console core with minimum severity warn drops
debug and info and delivers warn, error and fatal. -/
theorem sink_severity_filter_witness :
    (Core.mk (.console DefaultConfig.Encoder) .stdout WarnLevel).Enabled DebugLevel = false
    ∧ (Core.mk (.console DefaultConfig.Encoder) .stdout WarnLevel).Enabled InfoLevel = false
    ∧ (Core.mk (.console DefaultConfig.Encoder) .stdout WarnLevel).Enabled WarnLevel = true
    ∧ (Core.mk (.console DefaultConfig.Encoder) .stdout WarnLevel).Enabled ErrorLevel = true
    ∧ (Core.mk (.console DefaultConfig.Encoder) .stdout WarnLevel).Enabled FatalLevel = true :=
  sink_severity_filter.2.2 (Core.mk (.console DefaultConfig.Encoder) .stdout WarnLevel) rfl

end Claims

/-! Unfolding and composition lemmas for the builder loop and `new`. -/

theorem collectCores_nil (d : LoggerConfig) : collectCores [] d = ([], d) := rfl

theorem collectCores_none (bs : List (Option BuilderFn)) (d : LoggerConfig) :
    collectCores (none :: bs) d = collectCores bs d := rfl

theorem collectCores_some (b : BuilderFn) (bs : List (Option BuilderFn)) (d : LoggerConfig) :
    collectCores (some b :: bs) d =
      (match (b d).1 with
       | none => collectCores bs (b d).2
       | some c =>
           (c :: (collectCores bs (b d).2).1, (collectCores bs (b d).2).2)) := rfl

/-- If some member builder always writes a core, the loop collects at least
one core, whatever the shared default holds when each builder runs. -/
theorem collectCores_ne_nil (bs : List (Option BuilderFn)) (f : BuilderFn)
    (hmem : some f ∈ bs) (hprod : ∀ d, ((f d).1).isSome = true) :
    ∀ d, (collectCores bs d).1 ≠ [] := by
  induction bs with
  | nil => cases hmem
  | cons b rest ih =>
    intro d
    cases b with
    | none =>
        have hmem' : some f ∈ rest := by
          rcases List.mem_cons.mp hmem with h | h

          · cases h
          · exact h
        rw [collectCores_none]
        exact ih hmem' d
    | some g =>
        rw [collectCores_some]
        rcases List.mem_cons.mp hmem with h | h
        · have hfg : f = g := by injection h
          subst hfg
          have := hprod d
          cases hgd : (f d).1 with
          | none => rw [hgd] at this; cases this
          | some c => simp [hgd]
        · cases hgd : (g d).1 with
          | none => simpa [hgd] using ih h (g d).2
          | some c => simp [hgd]

/-- If every slot of the builder list is nil, the loop collects nothing and
leaves the default untouched. -/
theorem collectCores_all_none (bs : List (Option BuilderFn))
    (hall : ∀ b ∈ bs, b = none) :
    ∀ d, collectCores bs d = ([], d) := by
  induction bs with
  | nil => intro d; rfl
  | cons b rest ih =>
    intro d
    have hb : b = none := hall b (List.mem_cons_self b rest)
    subst hb
    rw [collectCores_none]
    exact ih (fun b' h => hall b' (List.mem_cons_of_mem _ h)) d

theorem newGo_nil (σ : GlobalState) (e : Bool) :
    newGo [] σ e = (.error .noBuilders, σ, []) := rfl

theorem newGo_cons (b : Option BuilderFn) (bs : List (Option BuilderFn))
    (σ : GlobalState) (e : Bool) :
    newGo (b :: bs) σ e =
      (let collected := collectCores (b :: bs) σ.defaultCfg
       let σ1 : GlobalState := { σ with defaultCfg := collected.2 }
       if collected.1.isEmpty then
         (.error .noValidCores, σ1, [])
       else
         let h : Handle :=
           { cores := collected.1, callerSkip := 1, stacktraceLevel := ErrorLevel }
         match σ.logger with
         | some prev =>
             (.ok h, { σ1 with logger := some h }, [Event.sync prev e, Event.install h])
         | none =>
             (.ok h, { σ1 with logger := some h }, [Event.install h])) := rfl

namespace Claims

/-- C2: `new` fails — with a configuration error and no handle — exactly
when the builder loop (which skips nil builders and builders that write no
core) collects zero cores; in particular it fails on the empty builder
list and on a list whose slots are all nil. -/
theorem build_fails_iff_no_cores :
    (∀ (builders : List (Option BuilderFn)) (σ : GlobalState) (e : Bool),
        (∃ err, (newGo builders σ e).1 = Except.error err ∧ isConfigError err = true) ↔
          (collectCores builders σ.defaultCfg).1 = [])
    ∧ (∀ (σ : GlobalState) (e : Bool),
        (newGo [] σ e).1 = Except.error GoError.noBuilders)
    ∧ (∀ (builders : List (Option BuilderFn)) (σ : GlobalState) (e : Bool),
        (∀ b ∈ builders, b = none) →
        ∃ err, (newGo builders σ e).1 = Except.error err ∧ isConfigError err = true) := by
  have main : ∀ (builders : List (Option BuilderFn)) (σ : GlobalState) (e : Bool),
      (∃ err, (newGo builders σ e).1 = Except.error err ∧ isConfigError err = true) ↔
        (collectCores builders σ.defaultCfg).1 = [] := by
    intro builders σ e
    cases builders with
    | nil =>
        rw [newGo_nil, collectCores_nil]
        exact ⟨fun _ => rfl, fun _ => ⟨.noBuilders, rfl, rfl⟩⟩
    | cons b bs =>
        rw [newGo_cons]
        rcases hL : (collectCores (b :: bs) σ.defaultCfg).1 with _ | ⟨c, cs⟩
        · simp only [hL, List.isEmpty_nil, if_true]
          exact ⟨fun _ => by trivial, fun _ => ⟨.noValidCores, rfl, rfl⟩⟩
        · rcases hσ : σ.logger with _ | prev <;>
            · simp only [hL, hσ, List.isEmpty_cons, if_false]
              constructor
              · rintro ⟨err, heq, -⟩
                cases heq
              · intro h
                cases h
  refine ⟨main, fun σ e => rfl, ?_⟩
  intro builders σ e hall
  refine (main builders σ e).mpr ?_
  rw [collectCores_all_none builders hall σ.defaultCfg]

/-- C2, witness: with both builder slots nil, the build fails with a
configuration error. -/
theorem build_fails_iff_no_cores_witness :
    ∃ err, (newGo [none, none] initialState false).1 = Except.error err
      ∧ isConfigError err = true :=
  build_fails_iff_no_cores.2.2 [none, none] initialState false
    (by intro b hb; simpa using hb)

/-- C3: whenever the builder list contains a non-nil builder that always
writes a core, `new` succeeds: it returns a handle (also installed in the
process-wide slot) whose cores are exactly the collected ones, and a write
through that handle reaches precisely the cores whose severity filter
admits the record; a nil builder slot is skipped without affecting the
collected cores. -/
theorem build_succeeds_with_valid_builder :
    (∀ (builders : List (Option BuilderFn)) (σ : GlobalState) (e : Bool) (f : BuilderFn),
        some f ∈ builders → (∀ d, ((f d).1).isSome = true) →
        ∃ h, (newGo builders σ e).1 = Except.ok h
          ∧ (newGo builders σ e).2.1.logger = some h
          ∧ h.cores = (collectCores builders σ.defaultCfg).1
          ∧ ∀ (lvl : Level) (c : Core), c ∈ h.cores →
              (c ∈ h.write lvl ↔ c.Enabled lvl = true))
    ∧ (∀ (bs : List (Option BuilderFn)) (d : LoggerConfig),
        collectCores (none :: bs) d = collectCores bs d) := by
  refine ⟨?_, collectCores_none⟩
  intro builders σ e f hmem hprod
  cases builders with
  | nil => cases hmem
  | cons b bs =>
      have hne : (collectCores (b :: bs) σ.defaultCfg).1 ≠ [] :=
        collectCores_ne_nil (b :: bs) f hmem hprod σ.defaultCfg
      rw [newGo_cons]
      rcases hL : (collectCores (b :: bs) σ.defaultCfg).1 with _ | ⟨c, cs⟩
      · exact absurd hL hne
      · refine ⟨{ cores := c :: cs, callerSkip := 1, stacktraceLevel := ErrorLevel }, ?_⟩
        rcases hσ : σ.logger with _ | prev <;>
          · simp only [hL, hσ, List.isEmpty_cons, if_false]
            refine ⟨by trivial, by trivial, by trivial, ?_⟩
            intro lvl c' hc'
            simp [Handle.write, teeWrite, List.mem_filter, hc']

/-- C3, witness: one valid file builder suffices; the build succeeds, the
handle is installed and its write fans out by severity. -/
theorem build_succeeds_with_valid_builder_witness :
    ∃ h, (newGo [some (WithFileCore []), none] initialState false).1 = Except.ok h
      ∧ (newGo [some (WithFileCore []), none] initialState false).2.1.logger = some h
      ∧ h.cores = (collectCores [some (WithFileCore []), none] initialState.defaultCfg).1
      ∧ ∀ (lvl : Level) (c : Core), c ∈ h.cores →
          (c ∈ h.write lvl ↔ c.Enabled lvl = true) :=
  build_succeeds_with_valid_builder.1 [some (WithFileCore []), none] initialState false
    (WithFileCore []) (List.mem_cons_self _ _) (fun _ => rfl)

/-- C5: whenever a previous process-wide handle exists and a build succeeds,
the event trace shows the previous handle flushed strictly before the new
handle is installed in the slot; and the flush result oracle changes
neither the returned value nor the resulting state — a flush failure is
discarded and never blocks installation. -/
theorem rebuild_flushes_previous_first :
    ∀ (builders : List (Option BuilderFn)) (σ : GlobalState) (e : Bool)
      (prev h : Handle),
      σ.logger = some prev →
      (newGo builders σ e).1 = Except.ok h →
      (newGo builders σ e).2.2 = [Event.sync prev e, Event.install h]
      ∧ (newGo builders σ e).2.1.logger = some h
      ∧ (newGo builders σ true).1 = (newGo builders σ false).1
      ∧ (newGo builders σ true).2.1 = (newGo builders σ false).2.1 := by
  intro builders σ e prev h hprev hok
  cases builders with
  | nil => cases hok
  | cons b bs =>
      rw [newGo_cons] at hok
      rcases hL : (collectCores (b :: bs) σ.defaultCfg).1 with _ | ⟨c, cs⟩
      · simp only [hL, List.isEmpty_nil, if_true] at hok
        cases hok
      · simp only [hL, hprev, List.isEmpty_cons, if_false] at hok
        obtain rfl := Except.ok.inj hok
        simp only [newGo_cons, hL, hprev, List.isEmpty_cons, if_false]
        exact ⟨by trivial, by trivial, by trivial, by trivial⟩

/-- C5, witness: rebuilding over an already-installed handle flushes it
first, then installs the new one, and the flush error oracle is immaterial. -/
theorem rebuild_flushes_previous_first_witness :
    (newGo [some (WithConsoleCore [])]
        { defaultCfg := DefaultConfig
          logger := some { cores := [], callerSkip := 1, stacktraceLevel := ErrorLevel } }
        true).2.2 =
      [Event.sync { cores := [], callerSkip := 1, stacktraceLevel := ErrorLevel } true,
       Event.install
         ((newGo [some (WithConsoleCore [])]
             { defaultCfg := DefaultConfig
               logger := some { cores := [], callerSkip := 1, stacktraceLevel := ErrorLevel } }
             true).1.toOption.getD
           { cores := [], callerSkip := 1, stacktraceLevel := ErrorLevel })]
    ∧ (newGo [some (WithConsoleCore [])]
        { defaultCfg := DefaultConfig
          logger := some { cores := [], callerSkip := 1, stacktraceLevel := ErrorLevel } }
        true).1 =
      (newGo [some (WithConsoleCore [])]
        { defaultCfg := DefaultConfig
          logger := some { cores := [], callerSkip := 1, stacktraceLevel := ErrorLevel } }
        false).1 := by
  have h := rebuild_flushes_previous_first [some (WithConsoleCore [])]
    { defaultCfg := DefaultConfig
      logger := some { cores := [], callerSkip := 1, stacktraceLevel := ErrorLevel } }
    true
    { cores := [], callerSkip := 1, stacktraceLevel := ErrorLevel }
    { cores :=
        [{ encoder := .console { DefaultConfig.Encoder with
             EncodeLevel := LevelEncoderVal.custom
             EncodeTime := TimeEncoderVal.customColored }
           writer := .stdout
           level := InfoLevel }]
      callerSkip := 1, stacktraceLevel := ErrorLevel }
    rfl rfl
  exact ⟨h.1, h.2.2.1⟩

/-- C10: when `new` returns an error, the process-wide logger slot is left
exactly as it was and no lifecycle event happens: the previous handle is
neither flushed nor replaced, and nothing is installed. -/
theorem failed_build_leaves_slot :
    ∀ (builders : List (Option BuilderFn)) (σ : GlobalState) (e : Bool) (err : GoError),
      (newGo builders σ e).1 = Except.error err →
      (newGo builders σ e).2.1.logger = σ.logger
      ∧ (newGo builders σ e).2.2 = [] := by
  intro builders σ e err herr
  cases builders with
  | nil => exact ⟨rfl, rfl⟩
  | cons b bs =>
      rw [newGo_cons] at herr
      rcases hL : (collectCores (b :: bs) σ.defaultCfg).1 with _ | ⟨c, cs⟩
      · simp only [newGo_cons, hL, List.isEmpty_nil, if_true]
        exact ⟨by trivial, by trivial⟩
      · rcases hσ : σ.logger with _ | prev <;>
          · simp only [hL, hσ, List.isEmpty_cons, if_false] at herr
            cases herr

/-- C10, witness: the failing all-nil build leaves the installed handle in
place and emits no event. -/
theorem failed_build_leaves_slot_witness :
    (newGo [none]
        { defaultCfg := DefaultConfig
          logger := some { cores := [], callerSkip := 1, stacktraceLevel := ErrorLevel } }
        false).2.1.logger =
      some { cores := [], callerSkip := 1, stacktraceLevel := ErrorLevel }
    ∧ (newGo [none]
        { defaultCfg := DefaultConfig
          logger := some { cores := [], callerSkip := 1, stacktraceLevel := ErrorLevel } }
        false).2.2 = [] :=
  failed_build_leaves_slot [none]
    { defaultCfg := DefaultConfig
      logger := some { cores := [], callerSkip := 1, stacktraceLevel := ErrorLevel } }
    false GoError.noValidCores rfl

/-- C6, counterexample: when the logs directory cannot be created, the
exported build operation `New` returns that failure — a sink construction
problem, not a configuration error — to its caller instead of absorbing
it. -/
theorem dir_create_error_surfaced :
    (NewGo InfoLevel false initialState false).1 = Except.error GoError.dirCreateFailed
    ∧ isConfigError GoError.dirCreateFailed = false
    ∧ (NewGo InfoLevel false initialState false).2.1 = initialState :=
  ⟨rfl, rfl, rfl⟩

/-- C6, amended: the internal build operation `new` returns only
configuration errors, and the flush-failure oracle never changes its
result; the exported `New` additionally surfaces one non-configuration
failure, the uncreatable logs directory, before any sink is built — every
error it returns is either a configuration error or that directory
error. -/
theorem error_propagation_policy :
    (∀ (builders : List (Option BuilderFn)) (σ : GlobalState) (e : Bool) (err : GoError),
        (newGo builders σ e).1 = Except.error err → isConfigError err = true)
    ∧ (∀ (level : Level) (mk : Bool) (σ : GlobalState) (e : Bool) (err : GoError),
        (NewGo level mk σ e).1 = Except.error err →
        isConfigError err = true ∨ err = GoError.dirCreateFailed)
    ∧ (∀ (builders : List (Option BuilderFn)) (σ : GlobalState),
        (newGo builders σ true).1 = (newGo builders σ false).1) := by
  have hnew : ∀ (builders : List (Option BuilderFn)) (σ : GlobalState) (e : Bool)
      (err : GoError),
      (newGo builders σ e).1 = Except.error err → isConfigError err = true := by
    intro builders σ e err herr
    cases builders with
    | nil =>
        obtain rfl : GoError.noBuilders = err := Except.error.inj herr
        rfl
    | cons b bs =>
        rw [newGo_cons] at herr
        rcases hL : (collectCores (b :: bs) σ.defaultCfg).1 with _ | ⟨c, cs⟩
        · simp only [hL, List.isEmpty_nil, if_true] at herr
          obtain rfl : GoError.noValidCores = err := Except.error.inj herr
          rfl
        · rcases hσ : σ.logger with _ | prev <;>
            · simp only [hL, hσ, List.isEmpty_cons, if_false] at herr
              cases herr
  have hind : ∀ (builders : List (Option BuilderFn)) (σ : GlobalState),
      (newGo builders σ true).1 = (newGo builders σ false).1 := by
    intro builders σ
    cases builders with
    | nil => rfl
    | cons b bs =>
        rcases hL : (collectCores (b :: bs) σ.defaultCfg).1 with _ | ⟨c, cs⟩ <;>
          rcases hσ : σ.logger with _ | prev <;>
            (simp only [newGo_cons, hL, hσ, List.isEmpty_nil, List.isEmpty_cons,
              if_true, if_false]
             try rfl)
  refine ⟨hnew, ?_, hind⟩
  intro level mk σ e err herr
  cases mk with
  | false =>
      obtain rfl : GoError.dirCreateFailed = err := Except.error.inj herr
      exact Or.inr rfl
  | true =>
      have herr' :
          (newGo
            [some (WithFileCore [WithRotateSettings 10 7 true, WithLogLevel level]),
             some (WithConsoleCore [WithLogLevel level, WithColorOutput true])]
            σ e).1 = Except.error err := herr
      exact Or.inl (hnew _ σ e err herr')

/-- C6, amended, witness: the empty builder list produces a configuration
error from `new`, and `New` with a failing directory creation returns an
error that is the directory error. -/
theorem error_propagation_policy_witness :
    isConfigError GoError.noBuilders = true
    ∧ (isConfigError GoError.dirCreateFailed = true
        ∨ GoError.dirCreateFailed = GoError.dirCreateFailed) :=
  ⟨error_propagation_policy.1 [] initialState false GoError.noBuilders rfl,
   error_propagation_policy.2.1 InfoLevel false initialState false
     GoError.dirCreateFailed rfl⟩

/-- C7: each builder invocation hands back the shared default configuration
unchanged (it works on a copy); the builder loop therefore never mutates
the default whatever builders it runs, as long as each preserves it; and
the configuration each builder uses is exactly the bound options applied
in order — over a fresh copy of the default for the file builder, over a
fresh copy with the two console encoders pre-set for the console
builder. -/
theorem config_derived_from_fresh_copy :
    (∀ (options : List Opt) (d : LoggerConfig), (WithFileCore options d).2 = d)
    ∧ (∀ (options : List Opt) (d : LoggerConfig), (WithConsoleCore options d).2 = d)
    ∧ (∀ (bs : List (Option BuilderFn)) (d : LoggerConfig),
        (∀ f, some f ∈ bs → ∀ d', (f d').2 = d') → (collectCores bs d).2 = d)
    ∧ (∀ (options : List Opt) (d : LoggerConfig),
        (WithFileCore options d).1 =
          some { encoder := EncoderVal.json
                   { (applyOptions options d).Encoder with
                       EncodeTime := TimeEncoderVal.fileTime }
                 writer := WriterVal.file
                   { (applyOptions options d).Rotate with
                       Filename := (applyOptions options d).Encoder.NameKey }
                 level := (applyOptions options d).Level })
    ∧ (∀ (options : List Opt) (d : LoggerConfig),
        (WithConsoleCore options d).1 =
          some { encoder := EncoderVal.console
                   (applyOptions options
                     { d with
                         Encoder.EncodeLevel := LevelEncoderVal.custom
                         Encoder.EncodeTime := TimeEncoderVal.customColored }).Encoder
                 writer := WriterVal.stdout
                 level := (applyOptions options
                     { d with
                         Encoder.EncodeLevel := LevelEncoderVal.custom
                         Encoder.EncodeTime := TimeEncoderVal.customColored }).Level }) := by
  refine ⟨fun _ _ => rfl, fun _ _ => rfl, ?_, fun _ _ => rfl, fun _ _ => rfl⟩
  intro bs
  induction bs with
  | nil => intro d _; rfl
  | cons b rest ih =>
      intro d hpres
      cases b with
      | none =>
          rw [collectCores_none]
          exact ih d fun f hf => hpres f (List.mem_cons_of_mem _ hf)
      | some g =>
          have hg : (g d).2 = d := hpres g (List.mem_cons_self _ _) d
          have hrest : (collectCores rest (g d).2).2 = (g d).2 :=
            ih (g d).2 fun f hf => hpres f (List.mem_cons_of_mem _ hf)
          rw [collectCores_some]
          cases hgd : (g d).1 with
          | none => exact hrest.trans hg
          | some c => exact hrest.trans hg

/-- C7, witness: running the file and console builders through the loop
leaves the shared default configuration exactly as it was. -/
theorem config_derived_from_fresh_copy_witness :
    (collectCores [some (WithFileCore []), some (WithConsoleCore [])]
      DefaultConfig).2 = DefaultConfig :=
  config_derived_from_fresh_copy.2.2.1
    [some (WithFileCore []), some (WithConsoleCore [])] DefaultConfig
    (by
      intro f hf d'
      rcases List.mem_cons.mp hf with h | h
      · obtain rfl : WithFileCore [] = f := Option.some.inj h.symm
        rfl
      · rcases List.mem_cons.mp h with h2 | h2
        · obtain rfl : WithConsoleCore [] = f := Option.some.inj h2.symm
          rfl
        · cases h2)

end Claims

end GoKit
